import Mathlib

/-!
Verification of the KubeVirt VirtualMachineSnapshotSchedule reconciler
(`pkg/storage/snapshot/schedule.go`, types from `api/snapshot/v1beta1`).

The Go code is shallowly embedded: times are `Int` seconds since the Unix
epoch (`metav1.Time` / `time.Time` instants; `metav1.Duration` values use the
same unit), Go string maps are association lists with overwrite-on-insert,
and each side effect of the reconciler (API create/delete/patch calls, events,
cache lookups) is recorded in a transcript of `Action`s.  External call
results (cron parsing, the informer stores, API write outcomes) enter as
explicit inputs, mirroring the points where the Go code calls out.
-/

namespace KVSnapSched

/-- Go string-map insert: overwrite the binding of `k` when present, else
append it (models `m[k] = v` on a `map[string]string`). -/
def mapInsert (m : List (String × String)) (k v : String) : List (String × String) :=
  if m.any (fun p => p.1 = k) then
    m.map (fun p => if p.1 = k then (k, v) else p)
  else
    m ++ [(k, v)]

/-- Go string-map lookup: `m[k]`, returning `""` for a missing key. -/
def mapGet (m : List (String × String)) (k : String) : String :=
  match m.find? (fun p => p.1 = k) with
  | some p => p.2
  | none => ""

/-- Lookup on a possibly-nil Go map (`nil` map reads return `""`). -/
def labelGet (m : Option (List (String × String))) (k : String) : String :=
  match m with
  | none => ""
  | some m => mapGet m k

/-- Merge a template label map into a base map, entry by entry, as the Go
`for k, v := range tmpl { m[k] = v }` loop does.  The final map does not
depend on Go's randomized iteration order because template keys are distinct
in a Go map, but nothing here relies on that. -/
def mapMerge (base tmpl : List (String × String)) : List (String × String) :=
  tmpl.foldl (fun m p => mapInsert m p.1 p.2) base

/-- Zero-pad a numeral to two digits (Go `time.Format` "04" style fields). -/
def pad2 (n : Nat) : String :=
  if n < 10 then "0" ++ toString n else toString n

/-- Zero-pad a numeral to four digits (Go `time.Format` "2006" year field,
for years in 0..9999, the range relevant to wall-clock snapshots). -/
def pad4 (n : Nat) : String :=
  if n < 10 then "000" ++ toString n
  else if n < 100 then "00" ++ toString n
  else if n < 1000 then "0" ++ toString n
  else toString n

/-- Civil date from a count of days since 1970-01-01 (proleptic Gregorian,
the standard days-to-date conversion also used by Go's `time` package for
UTC).  Returns `(year, month, day)`. -/
def civilFromDays (days : Nat) : Nat × Nat × Nat :=
  let z := days + 719468
  let era := z / 146097
  let doe := z % 146097
  let yoe := (doe - doe / 1460 + doe / 36524 - doe / 146096) / 365
  let y := yoe + era * 400
  let doy := doe - (365 * yoe + yoe / 4 - yoe / 100)
  let mp := (5 * doy + 2) / 153
  let d := doy - (153 * mp + 2) / 5 + 1
  let m := if mp < 10 then mp + 3 else mp - 9
  (if m ≤ 2 then y + 1 else y, m, d)

/-- Go `time.Now().UTC().Format("20060102-150405")` for an epoch-seconds
instant at or after the epoch: `YYYYMMDD-HHMMSS` in UTC. -/
def formatTimestamp (t : Int) : String :=
  let s := t.toNat
  let days := s / 86400
  let rem := s % 86400
  let ymd := civilFromDays days
  pad4 ymd.1 ++ pad2 ymd.2.1 ++ pad2 ymd.2.2 ++ "-" ++
    pad2 (rem / 3600) ++ pad2 (rem % 3600 / 60) ++ pad2 (rem % 60)

/-- Type `metav1.OwnerReference` (the fields `createSnapshotForVM` populates). -/
structure OwnerRef where
  apiVersion : String
  kind : String
  name : String
  uid : String
  controller : Bool
deriving DecidableEq

/-- Type `snapshotv1.VirtualMachineSnapshot`, restricted to the fields the
schedule controller reads or writes: object metadata (name, namespace,
labels, annotations — field `annots`, creation timestamp, owner references)
and the spec fields it populates (source kind/name, deletion policy,
failure deadline). -/
structure VMSnap where
  name : String
  ns : String
  labels : Option (List (String × String))
  annots : Option (List (String × String))
  creationTimestamp : Int
  ownerReferences : List OwnerRef
  sourceKind : String
  sourceName : String
  deletionPolicy : Option String
  failureDeadline : Option Int
deriving DecidableEq

/-- Type `snapshotv1.VMSnapshotStatus` — per-VM sub-status entry of the schedule
status (`error` is `snapshotv1.Error`: time and message). -/
structure VMSnapshotStatus where
  vmName : String
  lastSnapshotName : String
  lastSnapshotTime : Option Int
  currentSnapshotCount : Int
  error : Option (Int × String)
deriving DecidableEq

/-- Type `snapshotv1.VirtualMachineSnapshotScheduleStatus` (the `conditions`
field is never read or written by the schedule controller and is omitted).
`phase` is the phase string ("Active" / "Paused" / "Failed", `""` unset). -/
structure ScheduleStatus where
  phase : String
  lastSnapshotTime : Option Int
  nextSnapshotTime : Option Int
  lastSuccessfulSnapshotName : String
  currentSnapshotCount : Int
  error : Option (Int × String)
  vmSnapshotStatuses : List VMSnapshotStatus
deriving DecidableEq

/-- The zero `VirtualMachineSnapshotScheduleStatus{}` the reconciler
installs when `schedule.Status` is nil. -/
def emptyStatus : ScheduleStatus :=
  { phase := "", lastSnapshotTime := none, nextSnapshotTime := none,
    lastSuccessfulSnapshotName := "", currentSnapshotCount := 0,
    error := none, vmSnapshotStatuses := [] }

/-- Type `snapshotv1.VirtualMachineSnapshotTemplateSpec` (labels, annotations —
field `annots`, deletion policy, failure deadline). -/
structure SnapTemplate where
  labels : Option (List (String × String))
  annots : Option (List (String × String))
  deletionPolicy : Option String
  failureDeadline : Option Int
deriving DecidableEq

/-- Type `snapshotv1.VirtualMachineSnapshotScheduleRetention`; `maxCount` is an
`*int32` in Go; the API spec constrains it to be ≥ 0 so it is modelled as
`Nat`. -/
structure Retention where
  expires : Option Int
  maxCount : Option Nat
deriving DecidableEq

/-- The spec fields of `VirtualMachineSnapshotSchedule` the reconciler
branches on.  The cron string and the source/vmSelector fields are consumed
only through the external parser and VM lookup, whose results enter the
reconciler as explicit inputs (`ReconcileEnv`). -/
structure ScheduleSpec where
  disabled : Bool
  failurePolicy : Option String
  retention : Option Retention
  snapshotTemplate : Option SnapTemplate

/-- Type `snapshotv1.VirtualMachineSnapshotSchedule`: metadata plus the spec and
status fields used by the controller. -/
structure Schedule where
  name : String
  ns : String
  uid : String
  spec : ScheduleSpec
  status : Option ScheduleStatus

-- Label and event-name constants from schedule.go.
def scheduleNameLabel : String := "snapshot.kubevirt.io/schedule-name"
def scheduleNamespaceLabel : String := "snapshot.kubevirt.io/schedule-namespace"
def scheduledSnapshotLabel : String := "snapshot.kubevirt.io/scheduled"
/-- Constant `snapshotSourceNameLabel` is declared in a sibling file of the snapshot
package (not among the provided sources); per the spec it is the
`source-name` label key. -/
def snapshotSourceNameLabel : String := "snapshot.kubevirt.io/source-name"
def scheduleCreateSnapshotEvent : String := "ScheduledSnapshotCreated"
def scheduleDeleteSnapshotEvent : String := "ScheduledSnapshotDeleted"
def scheduleRetentionCleanupEvent : String := "RetentionCleanup"
def scheduleFailedEvent : String := "ScheduledSnapshotFailed"
def scheduleInvalidCronEvent : String := "InvalidCronExpression"
def scheduleNoVMsMatchedEvent : String := "NoVMsMatchedSelector"

/-- One observable side effect of a reconcile pass, in program order:
an informer VM lookup (`getVMsToSnapshot`), a snapshot create call, a
snapshot delete call, a status-subresource JSON patch, or a recorded event
(type, reason, message). -/
inductive Action where
  | vmLookup
  | createSnap (s : VMSnap)
  | deleteSnap (ns name : String)
  | patch (op path : String) (value : ScheduleStatus)
  | event (etype reason msg : String)
deriving DecidableEq

/-- The `VirtualMachineSnapshot` object `createSnapshotForVM` builds for
schedule `sched` and VM `vmName` at instant `now`: name
`<schedule>-<vm>-<timestamp>`, the schedule's namespace, the four fixed
labels merged (in that order) with the template labels, the template
annotations copied when present, one controller owner reference to the
schedule, a VirtualMachine source, and deletion policy / failure deadline
taken from the template when set. -/
def createSnapshotObj (sched : Schedule) (vmName : String) (now : Int) : VMSnap :=
  let snapshotName := sched.name ++ "-" ++ vmName ++ "-" ++ formatTimestamp now
  let fixedLabels : List (String × String) :=
    [(scheduleNameLabel, sched.name),
     (scheduleNamespaceLabel, sched.ns),
     (scheduledSnapshotLabel, "true"),
     (snapshotSourceNameLabel, vmName)]
  let snapshotLabels :=
    match sched.spec.snapshotTemplate with
    | some tmpl =>
      match tmpl.labels with
      | some tl => mapMerge fixedLabels tl
      | none => fixedLabels
    | none => fixedLabels
  let snapshotAnnots :=
    match sched.spec.snapshotTemplate with
    | some tmpl => tmpl.annots
    | none => none
  { name := snapshotName
    ns := sched.ns
    labels := some snapshotLabels
    annots := snapshotAnnots
    creationTimestamp := 0
    ownerReferences :=
      [{ apiVersion := "snapshot.kubevirt.io/v1beta1"
         kind := "VirtualMachineSnapshotSchedule"
         name := sched.name
         uid := sched.uid
         controller := true }]
    sourceKind := "VirtualMachine"
    sourceName := vmName
    deletionPolicy :=
      match sched.spec.snapshotTemplate with
      | some tmpl => tmpl.deletionPolicy
      | none => none
    failureDeadline :=
      match sched.spec.snapshotTemplate with
      | some tmpl => tmpl.failureDeadline
      | none => none }

/-- Outcome of one `Create` API call: success, an `AlreadyExists` status
error, or any other error (with its message). -/
inductive CreateResult where
  | ok
  | alreadyExists
  | err (msg : String)
deriving DecidableEq

/-- Function `createSnapshotForVM`: issue the create call (recorded as a
`createSnap` action); `AlreadyExists` is success without an event; success
records a `ScheduledSnapshotCreated` event; any other error is returned. -/
def createSnapshotForVM (sched : Schedule) (now : Int) (vmName : String)
    (r : CreateResult) : List Action × Option String :=
  let obj := createSnapshotObj sched vmName now
  match r with
  | .ok =>
    ([.createSnap obj,
      .event "Normal" scheduleCreateSnapshotEvent
        ("Created snapshot " ++ obj.name ++ " for VM " ++ vmName)], none)
  | .alreadyExists => ([.createSnap obj], none)
  | .err m => ([.createSnap obj], some m)

/-- Function `createScheduledSnapshots`: create one snapshot per target VM,
accumulating per-VM failures as `"VM <name>: <err>"`; afterwards, if any
failures occurred, join them (`"; "`-separated) into a single error. -/
def createScheduledSnapshotsRun (sched : Schedule) (now : Int)
    (vms : List String) (res : String → CreateResult) :
    List Action × Option String :=
  let acc := vms.foldl
    (fun (acc : List Action × List String) vm =>
      let r := createSnapshotForVM sched now vm (res vm)
      (acc.1 ++ r.1,
       match r.2 with
       | none => acc.2
       | some m => acc.2 ++ ["VM " ++ vm ++ ": " ++ m]))
    ([], [])
  (acc.1,
   if acc.2.isEmpty then none
   else some ("failed to create snapshots: " ++ String.intercalate "; " acc.2))

/-- The per-snapshot selection test of `getScheduledSnapshotsForVM`:
same namespace as the schedule, a non-nil label map, a `schedule-name`
label equal to the schedule's name, and a `source-name` label equal to the
VM's name.  (Owner references and the `scheduled` label are not examined.) -/
def snapSelPred (sched : Schedule) (vmName : String) (s : VMSnap) : Bool :=
  s.ns = sched.ns && s.labels.isSome &&
    labelGet s.labels scheduleNameLabel = sched.name &&
    labelGet s.labels snapshotSourceNameLabel = vmName

/-- Function `getScheduledSnapshotsForVM`: filter the snapshot informer store by
`snapSelPred`. -/
def getScheduledSnapshotsForVM (store : List VMSnap) (sched : Schedule)
    (vmName : String) : List VMSnap :=
  store.filter (snapSelPred sched vmName)

/-- The per-snapshot counting test of `countSnapshotsForSchedule`: same
namespace, non-nil labels, and a matching `schedule-name` label.  (The
`source-name` and `scheduled` labels and owner references are not
examined.) -/
def snapCountPred (sched : Schedule) (s : VMSnap) : Bool :=
  s.ns = sched.ns && s.labels.isSome &&
    labelGet s.labels scheduleNameLabel = sched.name

/-- Function `countSnapshotsForSchedule`: count the store's snapshots selected by
`snapCountPred`. -/
def countSnapshotsForSchedule (store : List VMSnap) (sched : Schedule) : Int :=
  ((store.filter (snapCountPred sched)).length : Int)

/-- Insert into a list sorted ascending by `creationTimestamp`, keeping the
new element after existing elements with an equal timestamp. -/
def insertByTs (s : VMSnap) : List VMSnap → List VMSnap
  | [] => [s]
  | t :: ts =>
    if s.creationTimestamp < t.creationTimestamp then s :: t :: ts
    else t :: insertByTs s ts

/-- The `sort.Slice(snapshots, ...Before...)` call of `applyRetentionForVM`:
sort ascending by `creationTimestamp`.  Go's `sort.Slice` is unstable, so
its comparator (strict `Before`) pins the result only up to the order of
equal timestamps; this realization is stable, and every theorem that must
cover every admissible Go output is instead stated over any list satisfying
`sortedByTs`. -/
def sortByTs (l : List VMSnap) : List VMSnap :=
  l.foldr insertByTs []

/-- A list is admissible output of the retention sort: pairwise ascending
`creationTimestamp`. -/
def sortedByTs (l : List VMSnap) : Prop :=
  l.Pairwise (fun a b => a.creationTimestamp ≤ b.creationTimestamp)

/-- Name-membership test used by `applyRetentionForVM` when it scans
`snapshotsToDelete` for a snapshot's name. -/
def nameIn (s : VMSnap) (l : List VMSnap) : Bool :=
  l.any (fun d => s.name = d.name)

/-- The deletion list `applyRetentionForVM` computes from the (already
sorted) per-VM snapshot list: first every snapshot whose age exceeds
`expires` (when set); then, when `maxCount` is set, the snapshots not
already marked (`remaining`) are counted and, if they exceed `maxCount`,
the oldest `len(remaining) - maxCount` of them are appended — each after a
scan of the growing deletion list for its name. -/
def retentionToDelete (snapshots : List VMSnap) (expires : Option Int)
    (maxCount : Option Nat) (now : Int) : List VMSnap :=
  let afterAge :=
    match expires with
    | none => []
    | some e => snapshots.filter (fun s => now - s.creationTimestamp > e)
  match maxCount with
  | none => afterAge
  | some mc =>
    let remaining := snapshots.filter (fun s => !nameIn s afterAge)
    if remaining.length > mc then
      let toDel := remaining.take (remaining.length - mc)
      toDel.foldl (fun acc s => if nameIn s acc then acc else acc ++ [s]) afterAge
    else afterAge

/-- Function `statusEqual`: nil-aware comparison of two schedule statuses over
phase, current snapshot count, last successful snapshot name, last
snapshot time and next snapshot time (each time compared first for
nil-ness, then pointwise).  The `error`, `conditions` and
`vmSnapshotStatuses` fields are not compared. -/
def statusEqual (a b : Option ScheduleStatus) : Bool :=
  match a, b with
  | none, none => true
  | none, some _ => false
  | some _, none => false
  | some a, some b =>
    if a.phase ≠ b.phase then false
    else if a.currentSnapshotCount ≠ b.currentSnapshotCount then false
    else if a.lastSuccessfulSnapshotName ≠ b.lastSuccessfulSnapshotName then false
    else if a.lastSnapshotTime.isNone ≠ b.lastSnapshotTime.isNone then false
    else if a.lastSnapshotTime.isSome && a.lastSnapshotTime ≠ b.lastSnapshotTime then false
    else if a.nextSnapshotTime.isNone ≠ b.nextSnapshotTime.isNone then false
    else if a.nextSnapshotTime.isSome && a.nextSnapshotTime ≠ b.nextSnapshotTime then false
    else true

/-- Modelled from the spec (§4.4), for comparison with `statusEqual`: "an
explicit field-wise equality check (phase, count, last-snapshot-name,
last-snapshot-time, next-snapshot-time; deep compare for per-VM
sub-status)". -/
def statusEqualSpec (a b : Option ScheduleStatus) : Bool :=
  match a, b with
  | none, none => true
  | none, some _ => false
  | some _, none => false
  | some a, some b =>
    a.phase = b.phase && a.currentSnapshotCount = b.currentSnapshotCount &&
      a.lastSuccessfulSnapshotName = b.lastSuccessfulSnapshotName &&
      a.lastSnapshotTime = b.lastSnapshotTime &&
      a.nextSnapshotTime = b.nextSnapshotTime &&
      a.vmSnapshotStatuses = b.vmSnapshotStatuses

/-- Result of `GetByKey` on the schedule informer store inside
`updateScheduleStatus`: a lookup error, a missing key, or the stored
schedule's status. -/
inductive StoreLookup where
  | err (msg : String)
  | missing
  | found (stored : Option ScheduleStatus)

/-- Function `updateScheduleStatus`: read the stored schedule; on lookup error
return it, on a missing key return success (the Go code returns the nil
lookup error); when the candidate status equals the stored one under
`statusEqual`, skip the write; otherwise issue a JSON-patch
`replace /status` whose outcome is `writeErr`. -/
def updateScheduleStatusW (lk : StoreLookup) (writeErr : Option String)
    (cand : ScheduleStatus) : List Action × Option String :=
  match lk with
  | .err m => ([], some m)
  | .missing => ([], none)
  | .found stored =>
    if statusEqual stored (some cand) then ([], none)
    else ([.patch "replace" "/status" cand], writeErr)

/-- Everything the reconciler obtains from outside in one pass: the current
instant, the cron parse outcome (on success, the `cron.Schedule` as its
`Next` function), the VM resolution outcome (`getVMsToSnapshot`), per-VM
create call outcomes, the snapshot informer store, the schedule store
lookup used by the status writer, the status patch outcome, and per-name
delete call outcomes (`true` = deleted or `NotFound`). -/
structure ReconcileEnv where
  now : Int
  parse : Except String (Int → Int)
  vmsResult : Except String (List String)
  createResult : String → CreateResult
  snapStore : List VMSnap
  storeLookup : StoreLookup
  writeErr : Option String
  deleteOk : String → Bool

/-- Result of one reconcile pass: the schedule's in-memory status
afterwards, the transcript of side effects, and the returned
`(requeueAfter, error)` pair. -/
structure ReconcileResult where
  status : Option ScheduleStatus
  actions : List Action
  requeue : Int
  err : Option String

/-- Function `updateScheduleStatusError`: set `phase=Failed` and `status.error`
(timestamped message), write status (a write failure is returned instead,
without an event), then record a Warning `ScheduledSnapshotFailed` event
and return `(0, err)`. -/
def updateScheduleStatusErrorW (env : ReconcileEnv) (st : ScheduleStatus)
    (acts : List Action) (msg : String) : ReconcileResult :=
  let st' := { st with phase := "Failed", error := some (env.now, msg) }
  let w := updateScheduleStatusW env.storeLookup env.writeErr st'
  match w.2 with
  | some we => { status := some st', actions := acts ++ w.1, requeue := 0, err := some we }
  | none =>
    { status := some st'
      actions := acts ++ w.1 ++
        [.event "Warning" scheduleFailedEvent ("Schedule failed: " ++ msg)]
      requeue := 0
      err := some msg }

/-- Function `updateScheduleStatusPaused`: set `phase=Paused`, clear `error`, write
status (returning a write failure), and return `(0, nil)`. -/
def updateScheduleStatusPausedW (env : ReconcileEnv) (st : ScheduleStatus) :
    ReconcileResult :=
  let st' := { st with phase := "Paused", error := none }
  let w := updateScheduleStatusW env.storeLookup env.writeErr st'
  match w.2 with
  | some we => { status := some st', actions := w.1, requeue := 0, err := some we }
  | none => { status := some st', actions := w.1, requeue := 0, err := none }

/-- Function `updateScheduleStatusActive`: set `phase=Active`, clear `error`,
recompute `nextSnapshotTime` as `cron.Next` of `lastSnapshotTime` (or of
`now` when never fired), recount the schedule's snapshots, write status
(returning a write failure), and requeue `max(nextRun - now + 1s, 1s)`. -/
def updateScheduleStatusActiveW (env : ReconcileEnv) (next : Int → Int)
    (sched : Schedule) (st : ScheduleStatus) (acts : List Action) :
    ReconcileResult :=
  let fromTime :=
    match st.lastSnapshotTime with
    | some l => l
    | none => env.now
  let nextRun := next fromTime
  let st' :=
    { st with
      phase := "Active",
      error := none,
      nextSnapshotTime := some nextRun,
      currentSnapshotCount := countSnapshotsForSchedule env.snapStore sched }
  let w := updateScheduleStatusW env.storeLookup env.writeErr st'
  match w.2 with
  | some we => { status := some st', actions := acts ++ w.1, requeue := 0, err := some we }
  | none =>
    let r := nextRun - env.now + 1
    { status := some st', actions := acts ++ w.1,
      requeue := if r < 1 then 1 else r, err := none }

/-- Function `applyRetentionForVM`: list this schedule's snapshots of the VM, return
if none, sort by creation time, compute the deletion list, and issue one
delete call per entry, recording a Normal `ScheduledSnapshotDeleted` event
for each delete that succeeds or hits `NotFound`. -/
def applyRetentionForVMW (env : ReconcileEnv) (sched : Schedule)
    (ret : Retention) (vmName : String) : List Action :=
  let snaps := getScheduledSnapshotsForVM env.snapStore sched vmName
  if snaps.isEmpty then []
  else
    let sorted := sortByTs snaps
    let toDel := retentionToDelete sorted ret.expires ret.maxCount env.now
    toDel.foldl
      (fun acc s =>
        acc ++ [.deleteSnap s.ns s.name] ++
          (if env.deleteOk s.name then
            [.event "Normal" scheduleDeleteSnapshotEvent
              ("Deleted snapshot " ++ s.name ++ " due to retention policy")]
          else []))
      []

/-- Function `applyRetentionPolicy`: nothing when `retention` is unset, else the
per-VM retention pass for each target VM (per-VM failures are only
logged). -/
def applyRetentionPolicyW (env : ReconcileEnv) (sched : Schedule)
    (vms : List String) : List Action :=
  match sched.spec.retention with
  | none => []
  | some ret => vms.foldl (fun acc vm => acc ++ applyRetentionForVMW env sched ret vm) []

/-- The fire step of `updateVMSnapshotSchedule` (lines 99–113): when
`now ≥ nextRun`, create the snapshots; on a create error, either take the
error path (failure policy `Pause`) or record a Warning
`ScheduledSnapshotFailed` event and continue; whenever the pass did not
take the error path, advance `lastSnapshotTime` to `now`.  Returns the
updated status, the actions, and the error-path message if taken. -/
def fireStep (sched : Schedule) (env : ReconcileEnv) (st : ScheduleStatus)
    (vms : List String) (fire : Bool) :
    ScheduleStatus × List Action × Option String :=
  if fire then
    let c := createScheduledSnapshotsRun sched env.now vms env.createResult
    match c.2 with
    | some m =>
      if sched.spec.failurePolicy = some "Pause" then (st, c.1, some m)
      else
        ({ st with lastSnapshotTime := some env.now },
         c.1 ++ [.event "Warning" scheduleFailedEvent
           ("Failed to create snapshot: " ++ m)],
         none)
    | none => ({ st with lastSnapshotTime := some env.now }, c.1, none)
  else (st, [], none)

/-- Function `updateVMSnapshotSchedule`, one reconcile pass: install an empty status
when nil; parse the cron expression (error path on failure); take the
paused path when `disabled`; resolve the target VMs (error path on
failure); on an empty match record a Warning `NoVMsMatchedSelector` event
and go active; otherwise compute `nextRun` from `lastSnapshotTime` (or
`now − 1s` on first run), fire when `now ≥ nextRun`, apply retention, and
go active. -/
def updateVMSnapshotSchedule (sched : Schedule) (env : ReconcileEnv) :
    ReconcileResult :=
  let st0 :=
    match sched.status with
    | some st => st
    | none => emptyStatus
  match env.parse with
  | .error perr =>
    updateScheduleStatusErrorW env st0 [] ("invalid cron expression: " ++ perr)
  | .ok next =>
    if sched.spec.disabled then updateScheduleStatusPausedW env st0
    else
      match env.vmsResult with
      | .error verr => updateScheduleStatusErrorW env st0 [.vmLookup] verr
      | .ok vms =>
        if vms.isEmpty then
          updateScheduleStatusActiveW env next sched st0
            [.vmLookup,
             .event "Warning" scheduleNoVMsMatchedEvent
               "No VirtualMachines matched the selector"]
        else
          let nextRun :=
            match st0.lastSnapshotTime with
            | some l => next l
            | none => next (env.now - 1)
          let f := fireStep sched env st0 vms (nextRun ≤ env.now)
          match f.2.2 with
          | some m => updateScheduleStatusErrorW env f.1 (.vmLookup :: f.2.1) m
          | none =>
            let racts := applyRetentionPolicyW env sched vms
            updateScheduleStatusActiveW env next sched f.1
              (.vmLookup :: (f.2.1 ++ racts))

/-- Constant `DefaultFailureDeadline` from the snapshot API types: 5 minutes
(in epoch seconds, the time unit of this embedding). -/
def DefaultFailureDeadline : Int := 300

/-- Modelled from the spec: the failure deadline in force for a snapshot —
"FailureDeadline is the time limit for a snapshot to complete.  If not
specified, defaults to 5 minutes" (`DefaultFailureDeadline`).  The sibling
snapshot controller that applies this default is not among the provided
sources. -/
def effectiveFailureDeadline (fd : Option Int) : Int :=
  match fd with
  | some d => d
  | none => DefaultFailureDeadline

/-- Age-rule test of the retention spec: the snapshot's age exceeds
`expires` (never true when `expires` is unset). -/
def expiredB (expires : Option Int) (now : Int) (s : VMSnap) : Bool :=
  match expires with
  | none => false
  | some e => now - s.creationTimestamp > e

/-- The age-expired snapshots of a list. -/
def ageExpired (l : List VMSnap) (expires : Option Int) (now : Int) :
    List VMSnap :=
  l.filter (expiredB expires now)

/-- Count rule of the retention spec applied to `remaining` (the snapshots
that are not age-expired): when `maxCount` is set and `remaining` exceeds
it, the oldest `|remaining| − maxCount` entries (the front of the
ascending-sorted list). -/
def countExcess (remaining : List VMSnap) (maxCount : Option Nat) :
    List VMSnap :=
  match maxCount with
  | none => []
  | some mc =>
    if remaining.length > mc then remaining.take (remaining.length - mc)
    else []

theorem mapGet_map_overwrite_ne (m : List (String × String)) (kk v k : String)
    (h : kk ≠ k) :
    mapGet (m.map (fun p => if p.1 = kk then (kk, v) else p)) k = mapGet m k := by
  induction m with
  | nil => rfl
  | cons p rest ih =>
    by_cases hp : p.1 = kk
    · simp only [List.map_cons, mapGet, List.find?_cons, hp, if_pos]
      have hk : (kk = k) = False := by simp [h]
      have hpk : (p.1 = k) = False := by simp [hp, h]
      simp only [hk, hpk, decide_False]
      exact ih
    · simp only [List.map_cons, mapGet, List.find?_cons, if_neg hp]
      by_cases hpk : p.1 = k
      · simp [hpk]
      · simp only [hpk, decide_False]
        exact ih

theorem mapGet_append_single_ne (m : List (String × String)) (kk v k : String)
    (h : kk ≠ k) :
    mapGet (m ++ [(kk, v)]) k = mapGet m k := by
  induction m with
  | nil => simp [mapGet, List.find?, h]
  | cons p rest ih =>
    by_cases hpk : p.1 = k
    · simp [mapGet, List.find?_cons, hpk]
    · simp only [List.cons_append, mapGet, List.find?_cons, hpk, decide_False] at ih ⊢
      exact ih

theorem mapGet_mapInsert_ne (m : List (String × String)) (kk v k : String)
    (h : kk ≠ k) :
    mapGet (mapInsert m kk v) k = mapGet m k := by
  unfold mapInsert
  by_cases ha : m.any (fun p => p.1 = kk)
  · rw [if_pos ha]
    exact mapGet_map_overwrite_ne m kk v k h
  · rw [if_neg ha]
    exact mapGet_append_single_ne m kk v k h

theorem mapGet_mapMerge_notkey (base tmpl : List (String × String)) (k : String)
    (h : ∀ p ∈ tmpl, p.1 ≠ k) :
    mapGet (mapMerge base tmpl) k = mapGet base k := by
  induction tmpl generalizing base with
  | nil => rfl
  | cons p rest ih =>
    have hstep : mapGet (mapInsert base p.1 p.2) k = mapGet base k :=
      mapGet_mapInsert_ne base p.1 p.2 k (h p (by simp))
    have := ih (mapInsert base p.1 p.2) (fun q hq => h q (by simp [hq]))
    simpa [mapMerge, hstep] using this

/-- C10: snapshot selection for retention (`getScheduledSnapshotsForVM`)
and for `currentSnapshotCount` (`countSnapshotsForSchedule`) is by
namespace and labels only: a snapshot is selected iff it is in the store,
its namespace equals the schedule's, its label map is non-nil, and its
`schedule-name` label (and, for retention, its `source-name` label)
matches; owner references never influence either predicate, and neither
does the `scheduled` label, so relabeled snapshots from any creator are
counted and eligible for retention deletion. -/
theorem c10_selection_by_labels_only (store : List VMSnap) (sched : Schedule)
    (vmName : String) (s : VMSnap) :
    (s ∈ getScheduledSnapshotsForVM store sched vmName ↔
      s ∈ store ∧ s.ns = sched.ns ∧ s.labels.isSome = true ∧
        labelGet s.labels scheduleNameLabel = sched.name ∧
        labelGet s.labels snapshotSourceNameLabel = vmName)
    ∧ (∀ orefs, snapSelPred sched vmName { s with ownerReferences := orefs } =
        snapSelPred sched vmName s)
    ∧ (∀ orefs, snapCountPred sched { s with ownerReferences := orefs } =
        snapCountPred sched s)
    ∧ (∀ m v, s.labels = some m →
        snapSelPred sched vmName
            { s with labels := some (mapInsert m scheduledSnapshotLabel v) } =
          snapSelPred sched vmName s)
    ∧ countSnapshotsForSchedule store sched =
        ((store.filter (snapCountPred sched)).length : Int)
    ∧ (∀ t : VMSnap, snapCountPred sched t = true ↔
        (t.ns = sched.ns ∧ t.labels.isSome = true ∧
          labelGet t.labels scheduleNameLabel = sched.name)) := by
  refine ⟨?_, ?_, ?_, ?_, rfl, ?_⟩
  · simp [getScheduledSnapshotsForVM, snapSelPred, List.mem_filter, and_assoc]
  · intro orefs
    rfl
  · intro orefs
    rfl
  · intro m v hm
    have h1 : scheduledSnapshotLabel ≠ scheduleNameLabel := by decide
    have h2 : scheduledSnapshotLabel ≠ snapshotSourceNameLabel := by decide
    simp only [snapSelPred, hm, labelGet, Option.isSome_some,
      mapGet_mapInsert_ne m scheduledSnapshotLabel v scheduleNameLabel h1,
      mapGet_mapInsert_ne m scheduledSnapshotLabel v snapshotSourceNameLabel h2]
  · intro t
    simp [snapCountPred, and_assoc]

/-- Witness for C10 at a concrete store: a snapshot carrying the matching
labels but no owner reference and no `scheduled` label is selected. -/
theorem c10_witness :
    (⟨"x", "ns1", some [(scheduleNameLabel, "s1"), (snapshotSourceNameLabel, "vmA")],
        none, 5, [], "", "", none, none⟩ : VMSnap) ∈
      getScheduledSnapshotsForVM
        [⟨"x", "ns1", some [(scheduleNameLabel, "s1"), (snapshotSourceNameLabel, "vmA")],
            none, 5, [], "", "", none, none⟩]
        ⟨"s1", "ns1", "u", ⟨false, none, none, none⟩, none⟩ "vmA" := by
  have h := (c10_selection_by_labels_only
    [⟨"x", "ns1", some [(scheduleNameLabel, "s1"), (snapshotSourceNameLabel, "vmA")],
        none, 5, [], "", "", none, none⟩]
    ⟨"s1", "ns1", "u", ⟨false, none, none, none⟩, none⟩ "vmA"
    ⟨"x", "ns1", some [(scheduleNameLabel, "s1"), (snapshotSourceNameLabel, "vmA")],
        none, 5, [], "", "", none, none⟩).1
  exact h.mpr (by refine ⟨by simp, rfl, rfl, ?_, ?_⟩ <;> decide)

theorem statusEqual_some_iff (a b : ScheduleStatus) :
    statusEqual (some a) (some b) = true ↔
      (a.phase = b.phase ∧ a.currentSnapshotCount = b.currentSnapshotCount ∧
       a.lastSuccessfulSnapshotName = b.lastSuccessfulSnapshotName ∧
       a.lastSnapshotTime = b.lastSnapshotTime ∧
       a.nextSnapshotTime = b.nextSnapshotTime) := by
  unfold statusEqual
  dsimp only
  split_ifs with h1 h2 h3 h4 h5 h6 h7 <;> simp_all
  · intro hl
    exact (h4 (congrArg Option.isNone hl)).elim
  · intro _ hn
    exact h6 (congrArg Option.isNone hn)
  · constructor
    · cases ha : a.lastSnapshotTime with
      | some x => exact ha ▸ h5 (by simp [ha])
      | none =>
        cases hb : b.lastSnapshotTime with
        | none => rfl
        | some y => rw [ha, hb] at h4; simp at h4
    · cases ha : a.nextSnapshotTime with
      | some x => exact ha ▸ h7 (by simp [ha])
      | none =>
        cases hb : b.nextSnapshotTime with
        | none => rfl
        | some y => rw [ha, hb] at h6; simp at h6

/-- C6 counterexample: two statuses that differ only in the per-VM
sub-status list are `statusEqual` (so the writer skips the patch), although
the check described by the spec — which deep-compares the per-VM
sub-status — distinguishes them.  The claimed skip condition is therefore
not the one the code implements. -/
theorem c6_counterexample :
    statusEqual
        (some { emptyStatus with
                vmSnapshotStatuses := [⟨"vmA", "snap1", none, 1, none⟩] })
        (some emptyStatus) = true
    ∧ ({ emptyStatus with
         vmSnapshotStatuses := [⟨"vmA", "snap1", none, 1, none⟩] } : ScheduleStatus) ≠
        emptyStatus
    ∧ statusEqualSpec
        (some { emptyStatus with
                vmSnapshotStatuses := [⟨"vmA", "snap1", none, 1, none⟩] })
        (some emptyStatus) = false
    ∧ (updateScheduleStatusW
        (.found (some { emptyStatus with
                        vmSnapshotStatuses := [⟨"vmA", "snap1", none, 1, none⟩] }))
        none emptyStatus).1 = [] := by
  decide

/-- C6 (amended): the status writer skips the write exactly when the
candidate equals the stored status on phase, currentSnapshotCount,
lastSuccessfulSnapshotName, lastSnapshotTime and nextSnapshotTime — the
per-VM sub-status list (and the error field) are not part of the check —
and otherwise issues a single JSON-patch `replace /status`. -/
theorem c6_conditional_status_patch (stored cand : ScheduleStatus)
    (we : Option String) :
    ((updateScheduleStatusW (.found (some stored)) we cand).1 = [] ↔
      (stored.phase = cand.phase ∧
       stored.currentSnapshotCount = cand.currentSnapshotCount ∧
       stored.lastSuccessfulSnapshotName = cand.lastSuccessfulSnapshotName ∧
       stored.lastSnapshotTime = cand.lastSnapshotTime ∧
       stored.nextSnapshotTime = cand.nextSnapshotTime))
    ∧ ((updateScheduleStatusW (.found (some stored)) we cand).1 ≠ [] →
      (updateScheduleStatusW (.found (some stored)) we cand).1 =
        [.patch "replace" "/status" cand]) := by
  have hiff := statusEqual_some_iff stored cand
  by_cases h : statusEqual (some stored) (some cand) = true
  · unfold updateScheduleStatusW
    dsimp only
    rw [if_pos h]
    exact ⟨iff_of_true rfl (by simpa using hiff.mp h), fun hne => absurd rfl hne⟩
  · unfold updateScheduleStatusW
    dsimp only
    rw [if_neg h]
    refine ⟨?_, fun _ => rfl⟩
    exact iff_of_false (by simp) (fun hP => h (hiff.mpr hP))

/-- C9: the snapshot object built by `createSnapshotForVM` carries the
template's failureDeadline when the template sets one and a nil deadline
otherwise; the deadline in force for the created snapshot (spec-modelled
default application, `effectiveFailureDeadline`) is therefore the
template's value, or `DefaultFailureDeadline` = 5 minutes (300 s) when the
template omits it. -/
theorem c9_failure_deadline (sched : Schedule) (vmName : String) (now : Int) :
    (sched.spec.snapshotTemplate.bind SnapTemplate.failureDeadline = none →
      (createSnapshotObj sched vmName now).failureDeadline = none ∧
      effectiveFailureDeadline (createSnapshotObj sched vmName now).failureDeadline = 300)
    ∧ (∀ d, sched.spec.snapshotTemplate.bind SnapTemplate.failureDeadline = some d →
      (createSnapshotObj sched vmName now).failureDeadline = some d ∧
      effectiveFailureDeadline (createSnapshotObj sched vmName now).failureDeadline = d) := by
  have hfd : (createSnapshotObj sched vmName now).failureDeadline =
      sched.spec.snapshotTemplate.bind SnapTemplate.failureDeadline := by
    cases h : sched.spec.snapshotTemplate <;> simp [createSnapshotObj, h]
  constructor
  · intro h
    rw [hfd, h]
    exact ⟨rfl, rfl⟩
  · intro d h
    rw [hfd, h]
    exact ⟨rfl, rfl⟩

/-- Witness for C9: a schedule without a snapshot template yields a
snapshot whose deadline in force is 300 s, and one whose template sets
120 s yields 120 s. -/
theorem c9_witness :
    effectiveFailureDeadline
        (createSnapshotObj ⟨"s1", "ns1", "u", ⟨false, none, none, none⟩, none⟩
          "vmA" 0).failureDeadline = 300
    ∧ effectiveFailureDeadline
        (createSnapshotObj
          ⟨"s1", "ns1", "u",
            ⟨false, none, none, some ⟨none, none, none, some 120⟩⟩, none⟩
          "vmA" 0).failureDeadline = 120 :=
  ⟨((c9_failure_deadline ⟨"s1", "ns1", "u", ⟨false, none, none, none⟩, none⟩
      "vmA" 0).1 rfl).2,
   ((c9_failure_deadline
      ⟨"s1", "ns1", "u", ⟨false, none, none, some ⟨none, none, none, some 120⟩⟩, none⟩
      "vmA" 0).2 120 rfl).2⟩

/-- The `"VM <name>: <err>"` failure entry `createScheduledSnapshots`
accumulates for one VM (none when that VM's create succeeded or hit
`AlreadyExists`). -/
def perVMErrMsg (sched : Schedule) (now : Int) (res : String → CreateResult)
    (vm : String) : Option String :=
  match (createSnapshotForVM sched now vm (res vm)).2 with
  | none => none
  | some m => some ("VM " ++ vm ++ ": " ++ m)

theorem createRun_fold (sched : Schedule) (now : Int) (res : String → CreateResult)
    (vms : List String) (a : List Action) (e : List String) :
    vms.foldl
      (fun (acc : List Action × List String) vm =>
        let r := createSnapshotForVM sched now vm (res vm)
        (acc.1 ++ r.1,
         match r.2 with
         | none => acc.2
         | some m => acc.2 ++ ["VM " ++ vm ++ ": " ++ m]))
      (a, e) =
      (a ++ ((vms.map (fun vm => (createSnapshotForVM sched now vm (res vm)).1)).flatten),
       e ++ vms.filterMap (perVMErrMsg sched now res)) := by
  induction vms generalizing a e with
  | nil => simp
  | cons vm rest ih =>
    simp only [List.foldl_cons, List.map_cons, List.flatten, List.filterMap_cons]
    cases hr : (createSnapshotForVM sched now vm (res vm)).2 with
    | none => simp [hr, ih, perVMErrMsg, List.append_assoc]
    | some m => simp [hr, ih, perVMErrMsg, List.append_assoc]

theorem createRun_eq (sched : Schedule) (now : Int) (vms : List String)
    (res : String → CreateResult) :
    createScheduledSnapshotsRun sched now vms res =
      ((vms.map (fun vm => (createSnapshotForVM sched now vm (res vm)).1)).flatten,
       if (vms.filterMap (perVMErrMsg sched now res)).isEmpty then none
       else some ("failed to create snapshots: " ++
         String.intercalate "; " (vms.filterMap (perVMErrMsg sched now res)))) := by
  unfold createScheduledSnapshotsRun
  rw [createRun_fold]
  simp

theorem perVMErrMsg_eq_none_iff (sched : Schedule) (now : Int)
    (res : String → CreateResult) (vm : String) :
    perVMErrMsg sched now res vm = none ↔ ∀ m, res vm ≠ .err m := by
  cases hres : res vm <;> simp [perVMErrMsg, createSnapshotForVM, hres]

/-- C8: `AlreadyExists` on a create is success — no error and no event,
only the create call itself; `createScheduledSnapshots` returns no error
iff no target VM's create failed with a hard error, and otherwise returns
the single error joining all accumulated per-VM failures. -/
theorem c8_create_error_handling (sched : Schedule) (now : Int)
    (vms : List String) (res : String → CreateResult) :
    (∀ vm, res vm = .alreadyExists →
      (createSnapshotForVM sched now vm (res vm)).2 = none ∧
      (createSnapshotForVM sched now vm (res vm)).1 =
        [.createSnap (createSnapshotObj sched vm now)])
    ∧ ((createScheduledSnapshotsRun sched now vms res).2 = none ↔
        ∀ vm ∈ vms, ∀ m, res vm ≠ .err m)
    ∧ ((createScheduledSnapshotsRun sched now vms res).2 ≠ none →
        (createScheduledSnapshotsRun sched now vms res).2 =
          some ("failed to create snapshots: " ++
            String.intercalate "; " (vms.filterMap (perVMErrMsg sched now res)))) := by
  refine ⟨?_, ?_, ?_⟩
  · intro vm h
    rw [h]
    exact ⟨rfl, rfl⟩
  · rw [createRun_eq]
    by_cases he : (vms.filterMap (perVMErrMsg sched now res)).isEmpty
    · simp only [he, if_true]
      constructor
      · intro _ vm hvm m
        have : perVMErrMsg sched now res vm = none := by
          have hnil : vms.filterMap (perVMErrMsg sched now res) = [] := by
            simpa using he
          exact List.forall_none_of_filterMap_eq_nil hnil vm hvm
        exact (perVMErrMsg_eq_none_iff sched now res vm).mp this m
      · intro _
        trivial
    · simp only [he, if_false]
      refine iff_of_false (by simp) ?_
      intro hall
      apply he
      have : vms.filterMap (perVMErrMsg sched now res) = [] := by
        apply List.filterMap_eq_nil_iff.mpr
        intro vm hvm
        exact (perVMErrMsg_eq_none_iff sched now res vm).mpr (hall vm hvm)
      simp [this]
  · rw [createRun_eq]
    by_cases he : (vms.filterMap (perVMErrMsg sched now res)).isEmpty
    · simp [he]
    · simp [he]

theorem mapGet_cons_self (k v : String) (rest : List (String × String)) :
    mapGet ((k, v) :: rest) k = v := by
  simp [mapGet, List.find?_cons]

theorem mapGet_cons_ne (kv v k : String) (rest : List (String × String))
    (h : kv ≠ k) :
    mapGet ((kv, v) :: rest) k = mapGet rest k := by
  simp [mapGet, List.find?_cons, h]

theorem createSnapshotObj_labelGet (sched : Schedule) (vmName : String)
    (now : Int) (k : String)
    (hk : ∀ tmpl, sched.spec.snapshotTemplate = some tmpl →
      ∀ tl, tmpl.labels = some tl → ∀ p ∈ tl, p.1 ≠ k) :
    labelGet (createSnapshotObj sched vmName now).labels k =
      mapGet [(scheduleNameLabel, sched.name), (scheduleNamespaceLabel, sched.ns),
              (scheduledSnapshotLabel, "true"), (snapshotSourceNameLabel, vmName)]
        k := by
  cases htm : sched.spec.snapshotTemplate with
  | none => simp [createSnapshotObj, htm, labelGet]
  | some tmpl =>
    cases htl : tmpl.labels with
    | none => simp [createSnapshotObj, htm, htl, labelGet]
    | some tl =>
      simp only [createSnapshotObj, htm, htl, labelGet]
      exact mapGet_mapMerge_notkey _ tl k (hk tmpl htm tl htl)

/-- Witness for C8: with one VM hitting `AlreadyExists` and one
succeeding, the pass returns no error. -/
theorem c8_witness :
    (createScheduledSnapshotsRun ⟨"s1", "ns1", "u", ⟨false, none, none, none⟩, none⟩ 0
      ["vmA", "vmB"]
      (fun vm => if vm = "vmA" then .alreadyExists else .ok)).2 = none :=
  (c8_create_error_handling ⟨"s1", "ns1", "u", ⟨false, none, none, none⟩, none⟩ 0
    ["vmA", "vmB"] (fun vm => if vm = "vmA" then .alreadyExists else .ok)).2.1.mpr
    (by intro vm _ m; split <;> simp)

/-- C5 counterexample: a snapshot template whose label map binds the
reserved `schedule-name` key overrides the fixed label (template labels
are merged after the fixed ones), so a created snapshot need not carry
`schedule-name = S.name`: here the label reads "evil" instead of "s1". -/
theorem c5_counterexample :
    labelGet
        (createSnapshotObj
          ⟨"s1", "ns1", "u",
            ⟨false, none, none,
              some ⟨some [(scheduleNameLabel, "evil")], none, none, none⟩⟩, none⟩
          "vmA" 0).labels scheduleNameLabel = "evil"
    ∧ labelGet
        (createSnapshotObj
          ⟨"s1", "ns1", "u",
            ⟨false, none, none,
              some ⟨some [(scheduleNameLabel, "evil")], none, none, none⟩⟩, none⟩
          "vmA" 0).labels scheduleNameLabel ≠ "s1" := by
  constructor <;> decide

/-- C5 (amended): every snapshot the reconciler builds for schedule S and
VM v is named `<schedule>-<vm>-YYYYMMDD-HHMMSS` (UTC), lives in S's
namespace, and carries a controller owner reference to S; and — provided
the template's label map does not bind one of the four reserved label keys
(template labels are merged after the fixed ones and would override
them) — it carries the labels `schedule-name=S.name`,
`schedule-namespace=S.namespace`, `scheduled=true` and `source-name=v`. -/
theorem c5_created_snapshot_shape (sched : Schedule) (vmName : String)
    (now : Int)
    (htmpl : ∀ tmpl, sched.spec.snapshotTemplate = some tmpl →
      ∀ tl, tmpl.labels = some tl →
        ∀ p ∈ tl, p.1 ≠ scheduleNameLabel ∧ p.1 ≠ scheduleNamespaceLabel ∧
          p.1 ≠ scheduledSnapshotLabel ∧ p.1 ≠ snapshotSourceNameLabel) :
    (createSnapshotObj sched vmName now).name =
      sched.name ++ "-" ++ vmName ++ "-" ++ formatTimestamp now
    ∧ (createSnapshotObj sched vmName now).ns = sched.ns
    ∧ (createSnapshotObj sched vmName now).ownerReferences =
        [⟨"snapshot.kubevirt.io/v1beta1", "VirtualMachineSnapshotSchedule",
          sched.name, sched.uid, true⟩]
    ∧ labelGet (createSnapshotObj sched vmName now).labels scheduleNameLabel =
        sched.name
    ∧ labelGet (createSnapshotObj sched vmName now).labels scheduleNamespaceLabel =
        sched.ns
    ∧ labelGet (createSnapshotObj sched vmName now).labels scheduledSnapshotLabel =
        "true"
    ∧ labelGet (createSnapshotObj sched vmName now).labels snapshotSourceNameLabel =
        vmName := by
  refine ⟨rfl, rfl, rfl, ?_, ?_, ?_, ?_⟩
  · rw [createSnapshotObj_labelGet sched vmName now scheduleNameLabel
      (fun tmpl htm tl htl p hp => (htmpl tmpl htm tl htl p hp).1)]
    rw [mapGet_cons_self]
  · rw [createSnapshotObj_labelGet sched vmName now scheduleNamespaceLabel
      (fun tmpl htm tl htl p hp => (htmpl tmpl htm tl htl p hp).2.1)]
    rw [mapGet_cons_ne _ _ _ _ (by decide), mapGet_cons_self]
  · rw [createSnapshotObj_labelGet sched vmName now scheduledSnapshotLabel
      (fun tmpl htm tl htl p hp => (htmpl tmpl htm tl htl p hp).2.2.1)]
    rw [mapGet_cons_ne _ _ _ _ (by decide), mapGet_cons_ne _ _ _ _ (by decide),
      mapGet_cons_self]
  · rw [createSnapshotObj_labelGet sched vmName now snapshotSourceNameLabel
      (fun tmpl htm tl htl p hp => (htmpl tmpl htm tl htl p hp).2.2.2)]
    rw [mapGet_cons_ne _ _ _ _ (by decide), mapGet_cons_ne _ _ _ _ (by decide),
      mapGet_cons_ne _ _ _ _ (by decide), mapGet_cons_self]

/-- Witness for C5 at the spec's scenario 1 instant
(2024-01-01T00:00:30Z): schedule "s1", VM "vmA", a benign template label;
the name is `s1-vmA-20240101-000030` and the four labels are intact. -/
theorem c5_witness :
    (createSnapshotObj
        ⟨"s1", "ns1", "u",
          ⟨false, none, none, some ⟨some [("team", "db")], none, none, none⟩⟩,
          none⟩ "vmA" 1704067230).name = "s1-vmA-20240101-000030"
    ∧ labelGet
        (createSnapshotObj
          ⟨"s1", "ns1", "u",
            ⟨false, none, none, some ⟨some [("team", "db")], none, none, none⟩⟩,
            none⟩ "vmA" 1704067230).labels scheduleNameLabel = "s1" := by
  have h := c5_created_snapshot_shape
    ⟨"s1", "ns1", "u",
      ⟨false, none, none, some ⟨some [("team", "db")], none, none, none⟩⟩, none⟩
    "vmA" 1704067230
    (by
      intro tmpl htm tl htl p hp
      cases htm
      cases htl
      simp only [List.mem_singleton] at hp
      subst hp
      exact ⟨by decide, by decide, by decide, by decide⟩)
  refine ⟨?_, h.2.2.2.1⟩
  rw [h.1]
  decide

theorem nameIn_iff (s : VMSnap) (L : List VMSnap) :
    nameIn s L = true ↔ s.name ∈ L.map VMSnap.name := by
  unfold nameIn
  rw [List.any_eq_true]
  constructor
  · rintro ⟨d, hd, hsd⟩
    rw [List.mem_map]
    exact ⟨d, hd, (of_decide_eq_true hsd).symm⟩
  · intro h
    obtain ⟨d, hd, hname⟩ := List.mem_map.mp h
    exact ⟨d, hd, decide_eq_true hname.symm⟩

theorem afterAge_eq (l : List VMSnap) (e : Option Int) (now : Int) :
    (match e with
     | none => ([] : List VMSnap)
     | some ev => l.filter (fun s => now - s.creationTimestamp > ev)) =
      ageExpired l e now := by
  cases e with
  | none => simp [ageExpired, expiredB]
  | some ev => rfl

theorem nameIn_ageExpired (l : List VMSnap) (e : Option Int) (now : Int)
    (hnodup : (l.map VMSnap.name).Nodup) (s : VMSnap) (hs : s ∈ l) :
    nameIn s (ageExpired l e now) = expiredB e now s := by
  by_cases hex : expiredB e now s = true
  · rw [hex, nameIn_iff]
    exact List.mem_map_of_mem _ (List.mem_filter.mpr ⟨hs, hex⟩)
  · have hex' : expiredB e now s = false := by
      cases h : expiredB e now s
      · rfl
      · exact absurd h hex
    rw [hex', Bool.eq_false_iff]
    intro h
    rw [nameIn_iff] at h
    obtain ⟨d, hd, hname⟩ := List.mem_map.mp h
    have hdl := List.mem_filter.mp hd
    have heq : d = s :=
      List.inj_on_of_nodup_map hnodup hdl.1 hs hname
    have hcontra : expiredB e now s = true := heq ▸ hdl.2
    rw [hex'] at hcontra
    exact Bool.false_ne_true hcontra

theorem nameIn_eq_false_iff (s : VMSnap) (L : List VMSnap) :
    nameIn s L = false ↔ s.name ∉ L.map VMSnap.name := by
  rw [Bool.eq_false_iff]
  exact not_congr (nameIn_iff s L)

theorem dedup_foldl_append (toDel acc : List VMSnap)
    (hdisj : ∀ s ∈ toDel, s.name ∉ acc.map VMSnap.name)
    (hnd : (toDel.map VMSnap.name).Nodup) :
    toDel.foldl (fun acc s => if nameIn s acc then acc else acc ++ [s]) acc =
      acc ++ toDel := by
  induction toDel generalizing acc with
  | nil => simp
  | cons s rest ih =>
    have hs : nameIn s acc = false :=
      (nameIn_eq_false_iff s acc).mpr (hdisj s (List.mem_cons_self s rest))
    have hnd2 : s.name ∉ rest.map VMSnap.name ∧ (rest.map VMSnap.name).Nodup := by
      rw [List.map_cons, List.nodup_cons] at hnd
      exact hnd
    have hrec := ih (acc ++ [s])
      (by
        intro t ht
        rw [List.map_append, List.mem_append]
        push_neg
        refine ⟨hdisj t (List.mem_cons_of_mem s ht), ?_⟩
        simp only [List.map_cons, List.map_nil, List.mem_singleton]
        intro hteq
        exact hnd2.1 (hteq ▸ List.mem_map_of_mem VMSnap.name ht))
      hnd2.2
    simp only [List.foldl_cons, hs, Bool.false_eq_true, if_false]
    rw [hrec]
    simp

theorem retentionToDelete_eq (l : List VMSnap) (e : Option Int) (mc : Option Nat)
    (now : Int) (hnodup : (l.map VMSnap.name).Nodup) :
    retentionToDelete l e mc now =
      ageExpired l e now ++
        countExcess (l.filter (fun s => !expiredB e now s)) mc := by
  have main : ∀ A : List VMSnap, A = ageExpired l e now → ∀ N : Nat,
      (if (l.filter (fun s => !nameIn s A)).length > N then
        ((l.filter (fun s => !nameIn s A)).take
            ((l.filter (fun s => !nameIn s A)).length - N)).foldl
          (fun acc s => if nameIn s acc then acc else acc ++ [s]) A
      else A) =
        ageExpired l e now ++
          countExcess (l.filter (fun s => !expiredB e now s)) (some N) := by
    intro A hA N
    subst hA
    have hrem : l.filter (fun s => !nameIn s (ageExpired l e now)) =
        l.filter (fun s => !expiredB e now s) := by
      apply List.filter_congr
      intro s hs
      rw [nameIn_ageExpired l e now hnodup s hs]
    rw [hrem]
    set R := l.filter (fun s => !expiredB e now s) with hR
    by_cases hlen : R.length > N
    · rw [if_pos hlen]
      have hsub : ∀ t ∈ R.take (R.length - N), t ∈ l ∧ expiredB e now t = false := by
        intro t ht
        have htR : t ∈ R := List.mem_of_mem_take ht
        have := List.mem_filter.mp (hR ▸ htR)
        exact ⟨this.1, by simpa using this.2⟩
      rw [dedup_foldl_append]
      · rw [countExcess]
        rw [if_pos hlen]
      · intro t ht hmem
        obtain ⟨d, hd, hname⟩ := List.mem_map.mp hmem
        have hdl := List.mem_filter.mp hd
        have heq : d = t :=
          List.inj_on_of_nodup_map hnodup hdl.1 (hsub t ht).1 hname
        have hc : expiredB e now t = true := heq ▸ hdl.2
        rw [(hsub t ht).2] at hc
        exact Bool.false_ne_true hc
      · have h1 : (R.map VMSnap.name).Sublist (l.map VMSnap.name) :=
          (List.filter_sublist l).map VMSnap.name
        have h2 : ((R.take (R.length - N)).map VMSnap.name).Sublist
            (R.map VMSnap.name) :=
          (List.take_sublist _ R).map VMSnap.name
        exact (h2.trans h1).nodup hnodup
    · rw [if_neg hlen, countExcess, if_neg hlen, List.append_nil]
  cases e with
  | none =>
    cases mc with
    | none =>
      unfold retentionToDelete
      simp [countExcess, ageExpired, expiredB]
    | some N =>
      unfold retentionToDelete
      dsimp only
      exact main [] (by simp [ageExpired, expiredB]) N
  | some ev =>
    cases mc with
    | none =>
      unfold retentionToDelete
      dsimp only
      rw [show countExcess (l.filter (fun s => !expiredB (some ev) now s)) none =
          ([] : List VMSnap) from rfl, List.append_nil]
      rfl
    | some N =>
      unfold retentionToDelete
      dsimp only
      exact main (l.filter (fun s => decide (now - s.creationTimestamp > ev))) rfl N

theorem retentionToDelete_none_some (l : List VMSnap) (N : Nat) (now : Int)
    (hnodup : (l.map VMSnap.name).Nodup) :
    retentionToDelete l none (some N) now = l.take (l.length - N) := by
  rw [retentionToDelete_eq l none (some N) now hnodup]
  have hid : l.filter (fun s => !expiredB none now s) = l := by
    simp [expiredB]
  have hage : ageExpired l none now = [] := by
    simp [ageExpired, expiredB]
  rw [hid, hage, List.nil_append, countExcess]
  by_cases hlen : l.length > N
  · rw [if_pos hlen]
  · rw [if_neg hlen]
    have : l.length - N = 0 := by omega
    rw [this, List.take_zero]

/-- C2: on the sorted per-VM snapshot list (with the store's unique
names), the retention pass deletes exactly the age-expired snapshots
followed by, when `maxCount` is set, the excess-over-cap prefix of the
non-expired remainder — i.e. the union of the two rules, count applied
after age; consequently with `maxCount = N` and no `expires` the deletion
list is exactly the first `length − N` entries, at most `N` snapshots
remain, and every deleted snapshot is no younger than every kept one. -/
theorem c2_retention_deletion_set (l : List VMSnap) (e : Option Int)
    (mc : Option Nat) (now : Int) (hsorted : sortedByTs l)
    (hnodup : (l.map VMSnap.name).Nodup) :
    retentionToDelete l e mc now =
      ageExpired l e now ++
        countExcess (l.filter (fun s => !expiredB e now s)) mc
    ∧ (∀ N : Nat, retentionToDelete l none (some N) now = l.take (l.length - N))
    ∧ (∀ N : Nat, l.length - (retentionToDelete l none (some N) now).length ≤ N)
    ∧ (∀ N : Nat, ∀ d ∈ retentionToDelete l none (some N) now,
        ∀ kept ∈ l.drop (l.length - N),
          d.creationTimestamp ≤ kept.creationTimestamp) := by
  unfold sortedByTs at hsorted
  refine ⟨retentionToDelete_eq l e mc now hnodup, ?_, ?_, ?_⟩
  · intro N
    exact retentionToDelete_none_some l N now hnodup
  · intro N
    rw [retentionToDelete_none_some l N now hnodup, List.length_take,
      Nat.min_eq_left (Nat.sub_le _ _)]
    omega
  · intro N d hd kept hk
    rw [retentionToDelete_none_some l N now hnodup] at hd
    have hp := hsorted
    rw [← List.take_append_drop (l.length - N) l] at hp
    exact (List.pairwise_append.mp hp).2.2 d hd kept hk

/-- Five snapshots of ascending creation time (the spec's retention
scenario: `maxCount = 2`, no `expires`). -/
def c2ex : List VMSnap :=
  [⟨"t1", "ns", some [], none, 1, [], "", "", none, none⟩,
   ⟨"t2", "ns", some [], none, 2, [], "", "", none, none⟩,
   ⟨"t3", "ns", some [], none, 3, [], "", "", none, none⟩,
   ⟨"t4", "ns", some [], none, 4, [], "", "", none, none⟩,
   ⟨"t5", "ns", some [], none, 5, [], "", "", none, none⟩]

/-- Witness for C2: with five snapshots and `maxCount = 2`, the three
oldest are deleted. -/
theorem c2_witness :
    retentionToDelete c2ex none (some 2) 100 = c2ex.take (c2ex.length - 2) :=
  (c2_retention_deletion_set c2ex none (some 2) 100
    (by unfold sortedByTs; decide) (by decide)).2.1 2

/-- C4 counterexample: two ts-sorted arrangements of the same two
snapshots (equal `creationTimestamp`, distinct names) — both admissible
outputs of the code's comparator, which has no name tie-break — delete
different snapshots under `maxCount = 1`.  The deletion set is therefore
not a function of the set of `(creationTimestamp, name)` pairs, and no
lexicographic-name tie-break exists. -/
theorem c4_counterexample :
    (([⟨"a", "ns", some [], none, 0, [], "", "", none, none⟩,
       ⟨"b", "ns", some [], none, 0, [], "", "", none, none⟩] : List VMSnap).Perm
      [⟨"b", "ns", some [], none, 0, [], "", "", none, none⟩,
       ⟨"a", "ns", some [], none, 0, [], "", "", none, none⟩])
    ∧ sortedByTs
        [⟨"a", "ns", some [], none, 0, [], "", "", none, none⟩,
         ⟨"b", "ns", some [], none, 0, [], "", "", none, none⟩]
    ∧ sortedByTs
        [⟨"b", "ns", some [], none, 0, [], "", "", none, none⟩,
         ⟨"a", "ns", some [], none, 0, [], "", "", none, none⟩]
    ∧ (retentionToDelete
        [⟨"a", "ns", some [], none, 0, [], "", "", none, none⟩,
         ⟨"b", "ns", some [], none, 0, [], "", "", none, none⟩]
        none (some 1) 100).map VMSnap.name = ["a"]
    ∧ (retentionToDelete
        [⟨"b", "ns", some [], none, 0, [], "", "", none, none⟩,
         ⟨"a", "ns", some [], none, 0, [], "", "", none, none⟩]
        none (some 1) 100).map VMSnap.name = ["b"] := by
  refine ⟨by decide, by unfold sortedByTs; decide, by unfold sortedByTs; decide,
    by decide, by decide⟩

/-- C4 (amended): the retention deletion set is deterministic — dependent
only on the snapshots and the retention parameters — whenever the
creationTimestamps are pairwise distinct: any two ts-sorted arrangements
of the same snapshots yield identical deletion lists.  (On timestamp ties
the code has no name tie-break, so the outcome depends on the unstable
sort's tie order, per the counterexample.) -/
theorem c4_retention_deterministic (l1 l2 : List VMSnap) (e : Option Int)
    (mc : Option Nat) (now : Int)
    (hperm : l1.Perm l2) (hs1 : sortedByTs l1) (hs2 : sortedByTs l2)
    (hts : (l1.map VMSnap.creationTimestamp).Nodup) :
    retentionToDelete l1 e mc now = retentionToDelete l2 e mc now := by
  unfold sortedByTs at hs1 hs2
  haveI : IsAntisymm VMSnap
      (fun a b => a.creationTimestamp < b.creationTimestamp) :=
    ⟨fun a b h1 h2 => absurd (lt_trans h1 h2) (lt_irrefl _)⟩
  have hne1 : l1.Pairwise
      (fun a b => a.creationTimestamp ≠ b.creationTimestamp) :=
    List.pairwise_map.mp hts
  have hts2 : (l2.map VMSnap.creationTimestamp).Nodup :=
    (hperm.map VMSnap.creationTimestamp).nodup hts
  have hne2 : l2.Pairwise
      (fun a b => a.creationTimestamp ≠ b.creationTimestamp) :=
    List.pairwise_map.mp hts2
  have hlt1 : l1.Sorted (fun a b => a.creationTimestamp < b.creationTimestamp) :=
    (hs1.and hne1).imp (fun h => lt_of_le_of_ne h.1 h.2)
  have hlt2 : l2.Sorted (fun a b => a.creationTimestamp < b.creationTimestamp) :=
    (hs2.and hne2).imp (fun h => lt_of_le_of_ne h.1 h.2)
  rw [List.eq_of_perm_of_sorted hperm hlt1 hlt2]

/-- Witness for C4 at distinct timestamps: the two sorted arrangements
coincide, and so do the deletion lists. -/
theorem c4_witness :
    retentionToDelete
        [⟨"a", "ns", some [], none, 1, [], "", "", none, none⟩,
         ⟨"b", "ns", some [], none, 2, [], "", "", none, none⟩]
        none (some 1) 100 =
      retentionToDelete
        [⟨"a", "ns", some [], none, 1, [], "", "", none, none⟩,
         ⟨"b", "ns", some [], none, 2, [], "", "", none, none⟩]
        none (some 1) 100 :=
  c4_retention_deterministic _ _ none (some 1) 100 (List.Perm.refl _)
    (by unfold sortedByTs; decide) (by unfold sortedByTs; decide) (by decide)

theorem createRun_no_err (sched : Schedule) (now : Int) (vms : List String)
    (res : String → CreateResult)
    (hok : ∀ vm ∈ vms, ∀ m, res vm ≠ .err m) :
    (createScheduledSnapshotsRun sched now vms res).2 = none := by
  rw [createRun_eq]
  have hnil : vms.filterMap (perVMErrMsg sched now res) = [] :=
    List.filterMap_eq_nil_iff.mpr
      (fun vm hvm => (perVMErrMsg_eq_none_iff sched now res vm).mpr (hok vm hvm))
  simp [hnil]

theorem createRun_has_create (sched : Schedule) (now : Int) (vms : List String)
    (res : String → CreateResult) (vm : String) (hvm : vm ∈ vms) :
    Action.createSnap (createSnapshotObj sched vm now) ∈
      (createScheduledSnapshotsRun sched now vms res).1 := by
  rw [createRun_eq]
  dsimp only
  rw [List.mem_flatten]
  refine ⟨(createSnapshotForVM sched now vm (res vm)).1,
    List.mem_map_of_mem _ hvm, ?_⟩
  cases res vm <;> simp [createSnapshotForVM]

theorem createRun_actions_shape (sched : Schedule) (now : Int)
    (vms : List String) (res : String → CreateResult) :
    ∀ a ∈ (createScheduledSnapshotsRun sched now vms res).1,
      (∃ s, a = Action.createSnap s) ∨ (∃ t r g, a = Action.event t r g) := by
  intro a ha
  rw [createRun_eq] at ha
  dsimp only at ha
  rw [List.mem_flatten] at ha
  obtain ⟨as, has, hmem⟩ := ha
  obtain ⟨vm, _, rfl⟩ := List.mem_map.mp has
  cases hres : res vm <;> simp [createSnapshotForVM, hres] at hmem
  · rcases hmem with h | h
    · exact Or.inl ⟨_, h⟩
    · exact Or.inr ⟨_, _, _, h⟩
  · exact Or.inl ⟨_, hmem⟩
  · exact Or.inl ⟨_, hmem⟩

theorem delete_fold_shape (env : ReconcileEnv) (L : List VMSnap)
    (acc : List Action) :
    ∀ a ∈ L.foldl
      (fun acc s =>
        acc ++ [.deleteSnap s.ns s.name] ++
          (if env.deleteOk s.name then
            [.event "Normal" scheduleDeleteSnapshotEvent
              ("Deleted snapshot " ++ s.name ++ " due to retention policy")]
          else [])) acc,
      a ∈ acc ∨ (∃ n m, a = Action.deleteSnap n m) ∨
        (∃ t r g, a = Action.event t r g) := by
  induction L generalizing acc with
  | nil => exact fun a ha => Or.inl ha
  | cons s rest ih =>
    intro a ha
    rw [List.foldl_cons] at ha
    rcases ih _ a ha with hacc | hshape
    · rw [List.mem_append, List.mem_append] at hacc
      rcases hacc with (h | h) | h
      · exact Or.inl h
      · rw [List.mem_singleton] at h
        exact Or.inr (Or.inl ⟨_, _, h⟩)
      · split at h
        · rw [List.mem_singleton] at h
          exact Or.inr (Or.inr ⟨_, _, _, h⟩)
        · exact absurd h (List.not_mem_nil a)
    · exact Or.inr hshape

theorem retention_actions_shape (env : ReconcileEnv) (sched : Schedule)
    (vms : List String) :
    ∀ a ∈ applyRetentionPolicyW env sched vms,
      (∃ n m, a = Action.deleteSnap n m) ∨ (∃ t r g, a = Action.event t r g) := by
  unfold applyRetentionPolicyW
  cases sched.spec.retention with
  | none => exact fun a ha => absurd ha (List.not_mem_nil a)
  | some ret =>
    dsimp only
    induction vms using List.reverseRecOn with
    | nil => exact fun a ha => absurd ha (List.not_mem_nil a)
    | append_singleton rest vm ih =>
      intro a ha
      rw [List.foldl_append, List.foldl_cons, List.foldl_nil, List.mem_append] at ha
      rcases ha with h | h
      · exact ih a h
      · unfold applyRetentionForVMW at h
        dsimp only at h
        split at h
        · exact absurd h (List.not_mem_nil a)
        · rcases delete_fold_shape env _ [] a h with hacc | hshape
          · exact absurd hacc (List.not_mem_nil a)
          · exact hshape

theorem writer_actions_shape (lk : StoreLookup) (we : Option String)
    (cand : ScheduleStatus) :
    (updateScheduleStatusW lk we cand).1 = [] ∨
      (updateScheduleStatusW lk we cand).1 =
        [Action.patch "replace" "/status" cand] := by
  unfold updateScheduleStatusW
  cases lk with
  | err m => exact Or.inl rfl
  | missing => exact Or.inl rfl
  | found stored =>
    dsimp only
    split
    · exact Or.inl rfl
    · exact Or.inr rfl

theorem flow_parse_error (sched : Schedule) (env : ReconcileEnv) (perr : String)
    (hp : env.parse = .error perr) :
    updateVMSnapshotSchedule sched env =
      updateScheduleStatusErrorW env
        (match sched.status with | some st => st | none => emptyStatus) []
        ("invalid cron expression: " ++ perr) := by
  unfold updateVMSnapshotSchedule
  rw [hp]

theorem flow_paused (sched : Schedule) (env : ReconcileEnv) (next : Int → Int)
    (hp : env.parse = .ok next) (hd : sched.spec.disabled = true) :
    updateVMSnapshotSchedule sched env =
      updateScheduleStatusPausedW env
        (match sched.status with | some st => st | none => emptyStatus) := by
  unfold updateVMSnapshotSchedule
  rw [hp]
  dsimp only
  rw [hd]
  simp

theorem flow_main (sched : Schedule) (env : ReconcileEnv) (next : Int → Int)
    (vms : List String) (hp : env.parse = .ok next)
    (hd : sched.spec.disabled = false) (hv : env.vmsResult = .ok vms)
    (hne : vms.isEmpty = false)
    (hcerr : (createScheduledSnapshotsRun sched env.now vms
      env.createResult).2 = none) :
    updateVMSnapshotSchedule sched env =
      (let st0 := match sched.status with | some st => st | none => emptyStatus
       let nextRun := match st0.lastSnapshotTime with
         | some l => next l
         | none => next (env.now - 1)
       updateScheduleStatusActiveW env next sched
         (if nextRun ≤ env.now then { st0 with lastSnapshotTime := some env.now }
          else st0)
         (.vmLookup ::
           ((if nextRun ≤ env.now then
               (createScheduledSnapshotsRun sched env.now vms env.createResult).1
             else []) ++ applyRetentionPolicyW env sched vms))) := by
  unfold updateVMSnapshotSchedule
  rw [hp]
  dsimp only
  rw [hd]
  simp only [Bool.false_eq_true, if_false]
  rw [hv]
  dsimp only
  rw [hne]
  simp only [Bool.false_eq_true, if_false]
  unfold fireStep
  set st0 := (match sched.status with
    | some st => st
    | none => emptyStatus) with hst0
  set nr := (match st0.lastSnapshotTime with
    | some l => next l
    | none => next (env.now - 1)) with hnr
  by_cases hfire : nr ≤ env.now
  · rw [decide_eq_true hfire]
    simp only [if_pos rfl, if_true]
    rw [hcerr]
    simp only [if_pos hfire]
  · rw [decide_eq_false hfire]
    simp only [Bool.false_eq_true, if_false]
    simp only [if_neg hfire]

theorem writer_err_none (lk : StoreLookup) (we : Option String)
    (cand : ScheduleStatus) (hw : we = none) (hlk : ∀ m, lk ≠ .err m) :
    (updateScheduleStatusW lk we cand).2 = none := by
  unfold updateScheduleStatusW
  cases lk with
  | err m => exact absurd rfl (hlk m)
  | missing => rfl
  | found stored =>
    dsimp only
    split
    · rfl
    · exact hw

theorem writer_patch_of_ne (stored : Option ScheduleStatus) (we : Option String)
    (cand : ScheduleStatus)
    (hne : statusEqual stored (some cand) = false) :
    (updateScheduleStatusW (.found stored) we cand).1 =
      [Action.patch "replace" "/status" cand] := by
  unfold updateScheduleStatusW
  dsimp only
  rw [hne]
  simp

theorem activeW_shape (env : ReconcileEnv) (next : Int → Int) (sched : Schedule)
    (st : ScheduleStatus) (acts : List Action) :
    ∃ st' : ScheduleStatus,
      (updateScheduleStatusActiveW env next sched st acts).status = some st'
      ∧ st'.lastSnapshotTime = st.lastSnapshotTime
      ∧ st'.phase = "Active" ∧ st'.error = none
      ∧ ∃ w1, (updateScheduleStatusActiveW env next sched st acts).actions =
          acts ++ w1
        ∧ (w1 = [] ∨ w1 = [Action.patch "replace" "/status" st']) := by
  unfold updateScheduleStatusActiveW
  dsimp only
  split
  · exact ⟨_, rfl, rfl, rfl, rfl, _, rfl, writer_actions_shape _ _ _⟩
  · exact ⟨_, rfl, rfl, rfl, rfl, _, rfl, writer_actions_shape _ _ _⟩

/-- C7: a reconcile pass on a disabled schedule with a parseable cron (and
a working status write) sets phase=Paused, clears the error, performs the
(conditional) status write, returns `(0, nil)`, and issues no snapshot
create or delete call. -/
theorem c7_paused_pass (sched : Schedule) (env : ReconcileEnv)
    (next : Int → Int)
    (hp : env.parse = .ok next) (hd : sched.spec.disabled = true)
    (hw : env.writeErr = none) (hlk : ∀ m, env.storeLookup ≠ .err m) :
    ∃ st : ScheduleStatus,
      (updateVMSnapshotSchedule sched env).status = some st
      ∧ st.phase = "Paused" ∧ st.error = none
      ∧ (updateVMSnapshotSchedule sched env).requeue = 0
      ∧ (updateVMSnapshotSchedule sched env).err = none
      ∧ (∀ a ∈ (updateVMSnapshotSchedule sched env).actions,
          (∀ s, a ≠ Action.createSnap s) ∧ (∀ n m, a ≠ Action.deleteSnap n m))
      ∧ (∀ stored, env.storeLookup = .found stored →
          statusEqual stored (some st) = false →
            Action.patch "replace" "/status" st ∈
              (updateVMSnapshotSchedule sched env).actions) := by
  rw [flow_paused sched env next hp hd]
  unfold updateScheduleStatusPausedW
  dsimp only
  rw [writer_err_none env.storeLookup env.writeErr _ hw hlk]
  dsimp only
  refine ⟨_, rfl, rfl, rfl, rfl, rfl, ?_, ?_⟩
  · intro a ha
    rcases writer_actions_shape env.storeLookup env.writeErr _ with hnil | hpatch
    · rw [hnil] at ha
      exact absurd ha (List.not_mem_nil a)
    · rw [hpatch] at ha
      rw [List.mem_singleton] at ha
      subst ha
      exact ⟨fun s h => Action.noConfusion h, fun n m h => Action.noConfusion h⟩
  · intro stored hfound hne
    rw [hfound, writer_patch_of_ne stored env.writeErr _ hne]
    exact List.mem_singleton_self _

theorem writer_of_ne (stored : Option ScheduleStatus) (we : Option String)
    (cand : ScheduleStatus)
    (hne : statusEqual stored (some cand) = false) :
    updateScheduleStatusW (.found stored) we cand =
      ([Action.patch "replace" "/status" cand], we) := by
  unfold updateScheduleStatusW
  dsimp only
  rw [hne]
  simp

/-- The Failed status the reconciler computes on a cron parse error. -/
def failedStatus (sched : Schedule) (env : ReconcileEnv) (perr : String) :
    ScheduleStatus :=
  { (match sched.status with | some st => st | none => emptyStatus) with
    phase := "Failed",
    error := some (env.now, "invalid cron expression: " ++ perr) }

theorem flow_parse_error_shape (sched : Schedule) (env : ReconcileEnv)
    (perr : String) (hp : env.parse = .error perr) :
    updateVMSnapshotSchedule sched env =
      (let w := updateScheduleStatusW env.storeLookup env.writeErr
        (failedStatus sched env perr)
       match w.2 with
       | some we => ⟨some (failedStatus sched env perr), w.1, 0, some we⟩
       | none =>
         ⟨some (failedStatus sched env perr),
          w.1 ++ [.event "Warning" scheduleFailedEvent
            ("Schedule failed: invalid cron expression: " ++ perr)],
          0, some ("invalid cron expression: " ++ perr)⟩) := by
  unfold updateVMSnapshotSchedule
  rw [hp]
  rfl

/-- Schedule and environment of a pass whose cron expression fails to
parse (store holds an empty status; writes succeed). -/
def c3sched : Schedule := ⟨"s1", "ns1", "u", ⟨false, none, none, none⟩, none⟩

def c3env : ReconcileEnv :=
  ⟨50, .error "x", .ok ["vmA"], fun _ => .ok, [], .found (some emptyStatus),
   none, fun _ => true⟩

/-- C3 counterexample: on a cron parse failure the recorded event is
`ScheduledSnapshotFailed`, and no `InvalidCronExpression` event occurs in
the pass (that constant is declared but never used by the code). -/
theorem c3_counterexample :
    (updateVMSnapshotSchedule c3sched c3env).actions =
      [Action.patch "replace" "/status" (failedStatus c3sched c3env "x"),
       Action.event "Warning" "ScheduledSnapshotFailed"
         "Schedule failed: invalid cron expression: x"]
    ∧ (updateVMSnapshotSchedule c3sched c3env).actions.all
        (fun a => match a with
          | Action.event _ r _ => !(r == "InvalidCronExpression")
          | _ => true) = true := by
  constructor <;> decide

/-- C3 (amended): when the cron expression fails to parse (and the status
write succeeds against a differing stored status), the pass sets
phase=Failed with a timestamped error message, patches the status, records
a Warning `ScheduledSnapshotFailed` event — not `InvalidCronExpression` —
and returns `(0, the wrapped parse error)`; the transcript holds exactly
the patch and that event, so no VM lookup, create or delete occurs. -/
theorem c3_parse_error_path (sched : Schedule) (env : ReconcileEnv)
    (perr : String) (stored : Option ScheduleStatus)
    (hp : env.parse = .error perr)
    (hl : env.storeLookup = .found stored) (hw : env.writeErr = none)
    (hne : statusEqual stored (some (failedStatus sched env perr)) = false) :
    (updateVMSnapshotSchedule sched env).status =
      some (failedStatus sched env perr)
    ∧ (failedStatus sched env perr).phase = "Failed"
    ∧ (failedStatus sched env perr).error =
        some (env.now, "invalid cron expression: " ++ perr)
    ∧ (updateVMSnapshotSchedule sched env).actions =
        [Action.patch "replace" "/status" (failedStatus sched env perr),
         Action.event "Warning" scheduleFailedEvent
           ("Schedule failed: invalid cron expression: " ++ perr)]
    ∧ (updateVMSnapshotSchedule sched env).err =
        some ("invalid cron expression: " ++ perr)
    ∧ (updateVMSnapshotSchedule sched env).requeue = 0 := by
  rw [flow_parse_error_shape sched env perr hp]
  dsimp only
  rw [hl, writer_of_ne stored env.writeErr (failedStatus sched env perr) hne,
    hw]
  exact ⟨rfl, rfl, rfl, rfl, rfl, rfl⟩

/-- Witness for C3 (amended) at the concrete failing pass. -/
theorem c3_witness :
    (updateVMSnapshotSchedule c3sched c3env).err =
      some ("invalid cron expression: " ++ "x")
    ∧ (failedStatus c3sched c3env "x").phase = "Failed" :=
  ⟨(c3_parse_error_path c3sched c3env "x" (some emptyStatus) rfl rfl rfl
      (by decide)).2.2.2.2.1,
   (c3_parse_error_path c3sched c3env "x" (some emptyStatus) rfl rfl rfl
      (by decide)).2.1⟩

/-- Witness for C7: a disabled schedule's pass yields phase=Paused and
`(0, nil)`. -/
def c7sched : Schedule := ⟨"s1", "ns1", "u", ⟨true, none, none, none⟩, none⟩

def c7env : ReconcileEnv :=
  ⟨50, .ok (fun t => t + 60), .ok ["vmA"], fun _ => .ok, [],
   .found (some emptyStatus), none, fun _ => true⟩

theorem c7_witness :
    ∃ st, (updateVMSnapshotSchedule c7sched c7env).status = some st
      ∧ st.phase = "Paused"
      ∧ (updateVMSnapshotSchedule c7sched c7env).requeue = 0
      ∧ (updateVMSnapshotSchedule c7sched c7env).err = none := by
  obtain ⟨st, h1, h2, _, h4, h5, _⟩ :=
    c7_paused_pass c7sched c7env (fun t => t + 60) rfl rfl rfl
      (fun m h => StoreLookup.noConfusion h)
  exact ⟨st, h1, h2, h4, h5⟩

/-- C1: in a pass with a valid cron, a non-disabled schedule, a non-empty
target VM set and no hard create failure, snapshot creates are issued iff
`now ≥ nextRun`, where `nextRun = next(lastSnapshotTime)` when
`status.lastSnapshotTime` is set and `next(now − 1s)` on first run; when it
fires the resulting status carries `lastSnapshotTime = now`, and when it
does not fire `lastSnapshotTime` is unchanged. -/
theorem c1_fire_iff (sched : Schedule) (env : ReconcileEnv) (next : Int → Int)
    (vms : List String)
    (hp : env.parse = .ok next) (hd : sched.spec.disabled = false)
    (hv : env.vmsResult = .ok vms) (hne : vms ≠ [])
    (hok : ∀ vm ∈ vms, ∀ m, env.createResult vm ≠ .err m) :
    ((∃ s, Action.createSnap s ∈ (updateVMSnapshotSchedule sched env).actions) ↔
      (match (match sched.status with
              | some st => st
              | none => emptyStatus).lastSnapshotTime with
        | some l => next l
        | none => next (env.now - 1)) ≤ env.now)
    ∧ ((match (match sched.status with
              | some st => st
              | none => emptyStatus).lastSnapshotTime with
        | some l => next l
        | none => next (env.now - 1)) ≤ env.now →
        ∃ st, (updateVMSnapshotSchedule sched env).status = some st ∧
          st.lastSnapshotTime = some env.now)
    ∧ (¬ (match (match sched.status with
              | some st => st
              | none => emptyStatus).lastSnapshotTime with
        | some l => next l
        | none => next (env.now - 1)) ≤ env.now →
        ∃ st, (updateVMSnapshotSchedule sched env).status = some st ∧
          st.lastSnapshotTime =
            (match sched.status with
              | some st => st
              | none => emptyStatus).lastSnapshotTime) := by
  have hne' : vms.isEmpty = false := by
    cases vms with
    | nil => exact absurd rfl hne
    | cons v rest => rfl
  have hcerr := createRun_no_err sched env.now vms env.createResult hok
  rw [flow_main sched env next vms hp hd hv hne' hcerr]
  dsimp only
  set st0 := (match sched.status with
    | some st => st
    | none => emptyStatus) with hst0
  set nr := (match st0.lastSnapshotTime with
    | some l => next l
    | none => next (env.now - 1)) with hnr
  by_cases hfire : nr ≤ env.now
  · rw [if_pos hfire, if_pos hfire]
    obtain ⟨st', hstat, hlast, _, _, w1, hacts, hw1⟩ :=
      activeW_shape env next sched { st0 with lastSnapshotTime := some env.now }
        (.vmLookup ::
          ((createScheduledSnapshotsRun sched env.now vms env.createResult).1 ++
            applyRetentionPolicyW env sched vms))
    refine ⟨⟨fun _ => hfire, fun _ => ?_⟩, fun _ => ⟨st', hstat, ?_⟩,
      fun hnf => absurd hfire hnf⟩
    · obtain ⟨vm, hvm⟩ : ∃ vm, vm ∈ vms := by
        cases vms with
        | nil => exact absurd rfl hne
        | cons v rest => exact ⟨v, List.mem_cons_self v rest⟩
      refine ⟨createSnapshotObj sched vm env.now, ?_⟩
      rw [hacts]
      apply List.mem_append_left
      apply List.mem_cons_of_mem
      apply List.mem_append_left
      exact createRun_has_create sched env.now vms env.createResult vm hvm
    · exact hlast
  · rw [if_neg hfire, if_neg hfire]
    obtain ⟨st', hstat, hlast, _, _, w1, hacts, hw1⟩ :=
      activeW_shape env next sched st0
        (.vmLookup :: ([] ++ applyRetentionPolicyW env sched vms))
    refine ⟨⟨fun hex => ?_, fun h => absurd h hfire⟩,
      fun h => absurd h hfire, fun _ => ⟨st', hstat, hlast⟩⟩
    obtain ⟨s, hs⟩ := hex
    rw [hacts] at hs
    rw [List.mem_append] at hs
    rcases hs with hs | hs
    · rw [List.mem_cons] at hs
      rcases hs with hs | hs
      · exact Action.noConfusion hs
      · rw [List.nil_append] at hs
        rcases retention_actions_shape env sched vms _ hs with ⟨n, m, h⟩ | ⟨t, r, g, h⟩ <;>
          exact Action.noConfusion h
    · rcases hw1 with h | h
      · rw [h] at hs
        exact absurd hs (List.not_mem_nil _)
      · rw [h, List.mem_singleton] at hs
        exact Action.noConfusion hs

/-- Witness schedule/environment for C1: first run, cron next = t+1, so
`nextRun = now` and the pass fires. -/
def c1sched : Schedule := ⟨"s1", "ns1", "u", ⟨false, none, none, none⟩, none⟩

def c1env : ReconcileEnv :=
  ⟨100, .ok (fun t => t + 1), .ok ["vmA"], fun _ => .ok, [],
   .found (some emptyStatus), none, fun _ => true⟩

theorem c1_witness :
    (∃ s, Action.createSnap s ∈ (updateVMSnapshotSchedule c1sched c1env).actions)
    ∧ ∃ st, (updateVMSnapshotSchedule c1sched c1env).status = some st ∧
        st.lastSnapshotTime = some 100 := by
  have h := c1_fire_iff c1sched c1env (fun t => t + 1) ["vmA"] rfl rfl rfl
    (by intro h; cases h) (fun vm _ m h => CreateResult.noConfusion h)
  exact ⟨h.1.mpr (by decide), h.2.1 (by decide)⟩

/-- Witness for C6: a candidate differing in phase from the stored status
is patched. -/
theorem c6_witness :
    (updateScheduleStatusW (.found (some emptyStatus)) none
        { emptyStatus with phase := "Active" }).1 =
      [Action.patch "replace" "/status" { emptyStatus with phase := "Active" }] :=
  (c6_conditional_status_patch emptyStatus { emptyStatus with phase := "Active" }
      none).2
    (fun hnil =>
      absurd ((c6_conditional_status_patch emptyStatus
          { emptyStatus with phase := "Active" } none).1.mp hnil).1
        (by decide))

end KVSnapSched
